import Mathlib

/-!
Verification development for the ollama-prompt context-management engine.

The definitions below are a shallow embedding of the Python sources:
  * `src/ollama_prompt/session_db.py`      (persistence store)
  * `src/ollama_prompt/context_manager.py` (compaction engine, relevance scorer)
  * `src/ollama_prompt/vector_embedder.py` (embedder client)

Modelling conventions:
  * Strings from the source (message contents, scoring contexts, patterns)
    are modelled as `List Char`; SQL TEXT columns that are only compared for
    equality (roles, modes, file paths, strategies) are modelled as `String`.
  * ISO-8601 timestamps are modelled as `Nat` (only their ordering matters);
    wall-clock instants used by the cooldown are modelled as `Int` seconds.
  * Machine floats (threshold ratios, relevance scores) are modelled as `ℚ`;
    the cosine-similarity value, which involves a square root, lives in `ℝ`.
  * The per-session SQLite tables are modelled as lists; the `messages` list is
    kept in timestamp-ascending insertion order, matching the engine's use of
    `ORDER BY timestamp ASC` queries, so `ORDER BY timestamp DESC LIMIT n`
    becomes `reverse.take n`.
  * `ON DELETE CASCADE` from `messages` to `file_references` (session_db.py
    schema, line 121) is modelled inside `delete_messages`.
-/

/-- Row of the `messages` table (session_db.py, SCHEMA_V2 lines 97-106),
restricted to a single session as the `ContextManager` always is. -/
structure Message where
  id : Nat
  role : String
  content : List Char
  tokens : Nat
  timestamp : Nat
  isSummary : Bool
deriving DecidableEq, Repr

/-- Row of the `file_references` table (session_db.py, SCHEMA_V2 lines 115-122). -/
structure FileRef where
  id : Nat
  messageId : Nat
  filePath : String
  mode : String
  tokens : Nat
deriving DecidableEq, Repr

/-- The JSON `details` blob of a compaction event, one constructor per strategy
(context_manager.py lines 340, 408-411, 582-585). `tokensSaved` is an `Int`
because the Python subtraction `original_tokens - summary_tokens` may be
negative when a reference holds fewer than 50 tokens. -/
inductive CompactionDetails where
  | fileCompress (filesCompressed : Nat) (tokensSaved : Int)
  | messagePrune (messagesDeleted : Nat) (messagesKept : Nat)
  | llmSummary (messagesSummarized : Nat) (summaryTokens : Nat)
deriving DecidableEq, Repr

/-- Row of the `compaction_history` table (session_db.py lines 131-142).
`record_compaction` (lines 963-1006) computes
`tokens_freed = tokens_before - tokens_after`.  The event timestamp is not
inspected by any engine code and is omitted. -/
structure CompactionEvent where
  level : Nat
  tokensBefore : Nat
  tokensAfter : Nat
  tokensFreed : Int
  strategy : String
  details : Option CompactionDetails
deriving DecidableEq, Repr

/-- The state owned by one session: its three V2 tables plus the AUTOINCREMENT
counter for message ids. -/
structure SessionDB where
  messages : List Message
  fileRefs : List FileRef
  compactions : List CompactionEvent
  nextMessageId : Nat
deriving DecidableEq, Repr

/-- Model of `SessionDatabase.get_message_tokens` (session_db.py lines 704-721):
`SELECT COALESCE(SUM(tokens), 0) FROM messages WHERE session_id = ?`. -/
def get_message_tokens (db : SessionDB) : Nat :=
  (db.messages.map Message.tokens).sum

/-- Whether a message row with the given id exists (the JOIN guard used by the
file-reference queries). -/
def memMessage (db : SessionDB) (mid : Nat) : Bool :=
  db.messages.any (fun m => m.id = mid)

/-- Timestamp of the message with the given id (0 if absent; only used for rows
that pass the JOIN guard). -/
def msgTimestamp (db : SessionDB) (mid : Nat) : Nat :=
  ((db.messages.find? (fun m => m.id = mid)).map Message.timestamp).getD 0

/-- File references joined with their owning message
(`JOIN messages m ON fr.message_id = m.id`). -/
def joinedRefs (db : SessionDB) : List FileRef :=
  db.fileRefs.filter (fun fr => memMessage db fr.messageId)

/-- Ids of the `n` newest messages:
`SELECT id FROM messages ORDER BY timestamp DESC LIMIT n`
(session_db.py lines 893-899). -/
def recentMessageIds (db : SessionDB) (n : Nat) : List Nat :=
  (db.messages.reverse.take n).map Message.id

/-- Model of `SessionDatabase.save_message` (session_db.py lines 620-654):
INSERT with an AUTOINCREMENT id; returns the new row id.  The engine always
inserts with the current wall-clock timestamp, which is at least every stored
timestamp, so insertion at the tail keeps the list timestamp-ascending. -/
def save_message (db : SessionDB) (role : String) (content : List Char)
    (tokens : Nat) (isSummary : Bool) (timestamp : Nat) : SessionDB × Nat :=
  let m : Message :=
    { id := db.nextMessageId, role := role, content := content,
      tokens := tokens, timestamp := timestamp, isSummary := isSummary }
  ({ db with messages := db.messages ++ [m],
             nextMessageId := db.nextMessageId + 1 }, db.nextMessageId)

/-- Model of `SessionDatabase.delete_messages` (session_db.py lines 723-745):
`DELETE FROM messages WHERE id IN (...)`.  The schema's ON DELETE CASCADE also
removes the file references owned by the deleted messages. -/
def delete_messages (db : SessionDB) (ids : List Nat) : SessionDB :=
  { db with
    messages := db.messages.filter (fun m => !(ids.contains m.id)),
    fileRefs := db.fileRefs.filter (fun fr => !(ids.contains fr.messageId)) }

/-- Model of `SessionDatabase.update_file_reference_mode`
(session_db.py lines 936-957): `UPDATE file_references SET mode = ?, tokens = ?
WHERE id = ?`. -/
def update_file_reference_mode (db : SessionDB) (refId : Nat)
    (newMode : String) (newTokens : Nat) : SessionDB :=
  { db with fileRefs := db.fileRefs.map (fun fr =>
      if fr.id = refId then { fr with mode := newMode, tokens := newTokens }
      else fr) }

/-- Model of `SessionDatabase.record_compaction` (session_db.py lines 963-1006):
appends one audit row with `tokens_freed = tokens_before - tokens_after`. -/
def record_compaction (db : SessionDB) (level : Nat)
    (tokensBefore tokensAfter : Nat) (strategy : String)
    (details : Option CompactionDetails) : SessionDB :=
  { db with compactions := db.compactions ++
      [{ level := level, tokensBefore := tokensBefore,
         tokensAfter := tokensAfter,
         tokensFreed := (tokensBefore : Int) - (tokensAfter : Int),
         strategy := strategy, details := details }] }

/-- Stable insertion step for `sortBy`. -/
def insertBy {α : Type} (le : α → α → Bool) (x : α) : List α → List α
  | [] => [x]
  | y :: ys => if le x y then x :: y :: ys else y :: insertBy le x ys

/-- Stable sort used to model Python's stable `list.sort` and the store's
ORDER BY clauses: an element is inserted in front of the first element it
compares `le` to, so elements that compare equal keep their original order. -/
def sortBy {α : Type} (le : α → α → Bool) : List α → List α
  | [] => []
  | x :: xs => insertBy le x (sortBy le xs)

/-- Per-path row selection of the stale-file query (session_db.py lines
905-922): `GROUP BY fr.file_path HAVING fr.message_id = MAX(fr.message_id)`.
SQLite's bare-column rule makes the group yield the row carrying the maximal
`message_id`, modelled here as a fold taking that argmax. -/
def maxByMessageId : List FileRef → Option FileRef :=
  List.foldl (fun acc fr =>
    match acc with
    | none => some fr
    | some b => if b.messageId < fr.messageId then some fr else some b) none

/-- For each distinct file path, the reference row with the maximal message id. -/
def latestRefPerPath (refs : List FileRef) : List FileRef :=
  ((refs.map FileRef.filePath).dedup).filterMap
    (fun p => maxByMessageId (refs.filter (fun fr => fr.filePath = p)))

/-- Model of `SessionDatabase.get_stale_files` (session_db.py lines 867-934).
The query first collects the ids of the `stale_threshold` newest messages and
returns `[]` when that list is empty (in particular `LIMIT 0` yields no rows);
otherwise it takes, per file path, the most recent reference row (the optional
mode filter is part of the WHERE clause, hence applied before grouping) and
keeps the rows whose owning message is not among the recent ids.  The
`messages_ago` output column is not consumed by the engine and is omitted. -/
def get_stale_files (db : SessionDB) (staleThreshold : Nat)
    (modeFilter : Option String) : List FileRef :=
  let recentIds := recentMessageIds db staleThreshold
  if recentIds.isEmpty then []
  else
    let filtered := match modeFilter with
      | some m => (joinedRefs db).filter (fun fr => fr.mode = m)
      | none => joinedRefs db
    (latestRefPerPath filtered).filter (fun fr => !(recentIds.contains fr.messageId))

/-- Model of `SessionDatabase.get_file_references` (session_db.py lines
832-865): the joined rows for one file path, `ORDER BY m.timestamp DESC`. -/
def get_file_references (db : SessionDB) (path : String) : List FileRef :=
  sortBy (fun a b => decide (msgTimestamp db b.messageId ≤ msgTimestamp db a.messageId))
    ((joinedRefs db).filter (fun fr => fr.filePath = path))

/-!  Session rows and `update_session` (claim C7). -/

/-- A dynamically-typed SQLite column value, as stored in the `sessions` table. -/
inductive ColValue where
  | text (s : String)
  | int (n : Int)
  | null
deriving DecidableEq, Repr

/-- Row of the `sessions` table (session_db.py, SCHEMA_V1 lines 69-80). -/
structure SessionRow where
  session_id : String
  context : ColValue
  created_at : ColValue
  last_used : ColValue
  max_context_tokens : ColValue
  history_json : ColValue
  metadata_json : ColValue
  model_name : ColValue
  system_prompt : ColValue
deriving DecidableEq, Repr

/-- `SessionDatabase.ALLOWED_UPDATE_COLUMNS` (session_db.py lines 481-489). -/
def ALLOWED_UPDATE_COLUMNS : List String :=
  ["context", "last_used", "history_json", "metadata_json",
   "max_context_tokens", "system_prompt"]

/-- Effect of one `SET column = ?` clause on a session row. -/
def applyColumnUpdate (row : SessionRow) (kv : String × ColValue) : SessionRow :=
  if kv.1 = "context" then { row with context := kv.2 }
  else if kv.1 = "last_used" then { row with last_used := kv.2 }
  else if kv.1 = "history_json" then { row with history_json := kv.2 }
  else if kv.1 = "metadata_json" then { row with metadata_json := kv.2 }
  else if kv.1 = "max_context_tokens" then { row with max_context_tokens := kv.2 }
  else if kv.1 = "system_prompt" then { row with system_prompt := kv.2 }
  else row

/-- Model of `SessionDatabase.update_session` (session_db.py lines 491-529):
an empty update returns immediately; otherwise every key is validated against
the whitelist before the UPDATE statement is built, the first non-whitelisted
key raising `ValueError` with no column written; when all keys pass, every
requested column is set. -/
def update_session (row : SessionRow) (updates : List (String × ColValue)) :
    Except String SessionRow :=
  if updates.isEmpty then .ok row
  else
    match updates.find? (fun kv => !(ALLOWED_UPDATE_COLUMNS.contains kv.1)) with
    | some kv => .error ("Invalid column name: " ++ kv.1)
    | none => .ok (updates.foldl applyColumnUpdate row)

/-!  Engine constants, usage and threshold ladder, cooldown (claims C8, C10). -/

/-- `ContextManager.SOFT_THRESHOLD = 0.50` (context_manager.py line 38). -/
def SOFT_THRESHOLD : ℚ := 1 / 2

/-- `ContextManager.HARD_THRESHOLD = 0.65` (context_manager.py line 39). -/
def HARD_THRESHOLD : ℚ := 13 / 20

/-- `ContextManager.EMERGENCY_THRESHOLD = 0.80` (context_manager.py line 40). -/
def EMERGENCY_THRESHOLD : ℚ := 4 / 5

/-- `ContextManager.MIN_MESSAGES_BETWEEN_COMPACTION = 2` (line 43). -/
def MIN_MESSAGES_BETWEEN_COMPACTION : Nat := 2

/-- `ContextManager.MIN_TIME_BETWEEN_COMPACTION_SECONDS = 30` (line 44). -/
def MIN_TIME_BETWEEN_COMPACTION_SECONDS : Int := 30

/-- `ContextManager.STALE_FILE_THRESHOLD = 3` (line 47). -/
def STALE_FILE_THRESHOLD : Nat := 3

/-- `ContextManager.MIN_MESSAGES_TO_KEEP = 4` (line 50). -/
def MIN_MESSAGES_TO_KEEP : Nat := 4

/-- Model of `ContextManager.get_usage` (context_manager.py lines 121-131):
`max_tokens` is an arbitrary Python int, so it is modelled as `Int`; the
division is guarded by `if self.max_tokens <= 0: return 0.0`. -/
def get_usage (db : SessionDB) (maxTokens : Int) : ℚ :=
  if maxTokens ≤ 0 then 0
  else (get_message_tokens db : ℚ) / (maxTokens : ℚ)

/-- Model of `ContextManager._determine_level` (context_manager.py lines
142-158). -/
def determine_level (db : SessionDB) (maxTokens : Int) : Nat :=
  let usage := get_usage db maxTokens
  if usage ≥ EMERGENCY_THRESHOLD then 3
  else if usage ≥ HARD_THRESHOLD then 2
  else if usage ≥ SOFT_THRESHOLD then 1
  else 0

/-- Cooldown state of a `ContextManager` instance: the
`_messages_since_compaction` counter and `_last_compaction_time`
(context_manager.py lines 87-89). -/
structure CooldownState where
  messagesSinceCompaction : Nat
  lastCompactionTime : Option Int
deriving DecidableEq, Repr

/-- Model of `ContextManager._can_compact` (context_manager.py lines 160-177):
false when fewer than `MIN_MESSAGES_BETWEEN_COMPACTION` messages were appended
since the last compaction, or when fewer than 30 seconds have elapsed. -/
def can_compact (st : CooldownState) (now : Int) : Bool :=
  if st.messagesSinceCompaction < MIN_MESSAGES_BETWEEN_COMPACTION then false
  else
    match st.lastCompactionTime with
    | some t => if now - t < MIN_TIME_BETWEEN_COMPACTION_SECONDS then false else true
    | none => true

/-- One observed `add_message` call: the wall-clock instant, the compaction
level `_determine_level` reports after the insert, and whether the strategy
invoked at that level records a compaction event (a strategy that finds
nothing to do records none and leaves the cooldown counters alone,
context_manager.py lines 179-190 and 334-341). -/
structure AppendInput where
  now : Int
  level : Nat
  strategyRecords : Bool
deriving DecidableEq, Repr

/-- Cooldown effect of `ContextManager.add_message` followed by
`_auto_compact` (context_manager.py lines 192-255): the counter is
incremented, then a strategy runs only if `_can_compact` holds and the level
is nonzero; `_record_compaction` resets both cooldown trackers exactly when an
event is recorded.  Returns the new state and whether an event was recorded. -/
def add_message_step (st : CooldownState) (inp : AppendInput) :
    CooldownState × Bool :=
  let st1 : CooldownState :=
    { st with messagesSinceCompaction := st.messagesSinceCompaction + 1 }
  if can_compact st1 inp.now then
    if inp.level = 0 then (st1, false)
    else if inp.strategyRecords then
      ({ messagesSinceCompaction := 0, lastCompactionTime := some inp.now }, true)
    else (st1, false)
  else (st1, false)

/-- Runs a sequence of `add_message` calls, counting the compaction events
they record. -/
def run_appends (st : CooldownState) : List AppendInput → CooldownState × Nat
  | [] => (st, 0)
  | inp :: rest =>
    let step := add_message_step st inp
    let tail := run_appends step.1 rest
    (tail.1, (if step.2 then 1 else 0) + tail.2)

/-!  Relevance scorer (context_manager.py lines 416-499, vector_embedder.py
lines 278-333). -/

/-- A regex word character as matched by `\w` in
`re.findall(r'\b\w{3,}\b', ...)` (context_manager.py lines 457-458), restricted
to ASCII: letters, digits and underscore. -/
def isWordChar (c : Char) : Bool := c.isAlphanum || c = '_'

/-- Scans a character list, cutting it into the maximal runs of word
characters; `cur` is the reversed run being accumulated.  `\b\w{3,}\b` matches
exactly the maximal word-character runs of length at least 3, so
`re.findall` is this scan followed by a length filter. -/
def tokenizeAux : List Char → List Char → List (List Char)
  | [], cur => if cur.isEmpty then [] else [cur.reverse]
  | c :: cs, cur =>
    if isWordChar c then tokenizeAux cs (c :: cur)
    else if cur.isEmpty then tokenizeAux cs []
    else cur.reverse :: tokenizeAux cs []

/-- Model of `re.findall(r'\b\w{3,}\b', s.lower())`: lowercase the text, then
keep the maximal word-character runs of length ≥ 3. -/
def findallWords (s : List Char) : List (List Char) :=
  (tokenizeAux (s.map Char.toLower) []).filter (fun r => decide (3 ≤ r.length))

/-- Model of `set(re.findall(r'\b\w{3,}\b', s.lower()))`
(context_manager.py lines 457-458). -/
def keywordSet (s : List Char) : Finset (List Char) :=
  (findallWords s).toFinset

/-- The fenced-code delimiter of three backquotes (context_manager.py line 492);
written with `Char.ofNat 96`. -/
def codeFence : List Char := [Char.ofNat 96, Char.ofNat 96, Char.ofNat 96]

/-- The file-reference pattern `@./` (context_manager.py line 496). -/
def atDotSlash : List Char := ['@', '.', '/']

/-- The file-reference pattern `@/` (context_manager.py line 496). -/
def atSlash : List Char := ['@', '/']

/-- Python's substring test `p in s`, i.e. contiguous-sublist containment. -/
def containsSub (p l : List Char) : Bool := decide (p <:+: l)

/-- Model of `ContextManager._apply_relevance_boosts` (context_manager.py lines
473-499): multiply by 1.1 for assistant role, 1.2 for a fenced code delimiter,
1.15 for a file-reference pattern, then cap at 1.0.  Generic over the score
field so the same definition serves the rational lexical path and the real
semantic path. -/
def apply_relevance_boosts {α : Type} [LinearOrderedField α]
    (msg : Message) (baseScore : α) : α :=
  let s1 := if msg.role = "assistant" then baseScore * (11 / 10) else baseScore
  let s2 := if containsSub codeFence msg.content then s1 * (6 / 5) else s1
  let s3 := if containsSub atDotSlash msg.content || containsSub atSlash msg.content
            then s2 * (23 / 20) else s2
  min 1 s3

/-- Model of `ContextManager._calculate_keyword_relevance` (context_manager.py
lines 443-471): boosted Jaccard similarity of the two keyword sets, 0 when
either set is empty. -/
def calculate_keyword_relevance (msg : Message) (context : List Char) : ℚ :=
  let messageWords := keywordSet msg.content
  let contextWords := keywordSet context
  if messageWords = ∅ ∨ contextWords = ∅ then 0
  else
    let inter := (messageWords ∩ contextWords).card
    let uni := (messageWords ∪ contextWords).card
    if uni = 0 then 0
    else apply_relevance_boosts msg ((inter : ℚ) / (uni : ℚ))

/-- Model of `VectorEmbedder.cosine_similarity` (vector_embedder.py lines
278-308): 0 when either vector is `None` or empty or the lengths differ or
either norm is zero, otherwise the usual dot product over the product of
Euclidean norms. -/
noncomputable def cosine_similarity (vec1 vec2 : Option (List ℝ)) : ℝ :=
  match vec1, vec2 with
  | some v1, some v2 =>
    if v1.isEmpty || v2.isEmpty then 0
    else if v1.length ≠ v2.length then 0
    else
      let dotProduct := ((v1.zip v2).map (fun p => p.1 * p.2)).sum
      let magnitude1 := Real.sqrt ((v1.map (fun a => a * a)).sum)
      let magnitude2 := Real.sqrt ((v2.map (fun b => b * b)).sum)
      if magnitude1 = 0 ∨ magnitude2 = 0 then 0
      else dotProduct / (magnitude1 * magnitude2)
  | _, _ => 0

/-- Model of `VectorEmbedder.score_relevance` (vector_embedder.py lines
310-333): embed both texts, take the cosine, remap from [-1, 1] to [0, 1].
The external embedding endpoint is abstracted as the function `embed`
(`None` signals a failed embedding, as the client returns on any error). -/
noncomputable def score_relevance (embed : List Char → Option (List ℝ))
    (text context : List Char) : ℝ :=
  (cosine_similarity (embed text) (embed context) + 1) / 2

/-- Model of `ContextManager._calculate_relevance` (context_manager.py lines
416-441): when a vector embedder is available, use the semantic score if it is
positive, with boosts; otherwise fall back to the boosted keyword score. -/
noncomputable def calculate_relevance (embedderAvailable : Bool)
    (embed : List Char → Option (List ℝ)) (msg : Message)
    (context : List Char) : ℝ :=
  if embedderAvailable then
    let vectorScore := score_relevance embed msg.content context
    if vectorScore > 0 then apply_relevance_boosts msg vectorScore
    else ((calculate_keyword_relevance msg context : ℚ) : ℝ)
  else ((calculate_keyword_relevance msg context : ℚ) : ℝ)

/-!  Compaction strategies (context_manager.py lines 283-623). -/

/-- Body of the per-stale-file loop shared by `_soft_compact` (context_manager.py
lines 305-330) and the recompression prelude of `_emergency_compact` (lines
526-539): look up the references for the file ordered newest-first, skip the
file if there are none, otherwise set the most recent reference to mode
`summary` with `max(50, tokens // 10)` tokens, accumulating the tokens saved
(an `Int`: the Python subtraction is negative for references under 50 tokens)
and the number of files compressed. -/
def compressRef (acc : SessionDB × Int × Nat) (fr : FileRef) :
    SessionDB × Int × Nat :=
  match (get_file_references acc.1 fr.filePath).head? with
  | none => acc
  | some latest =>
    let summaryTokens := max 50 (latest.tokens / 10)
    (update_file_reference_mode acc.1 latest.id "summary" summaryTokens,
     acc.2.1 + ((latest.tokens : Int) - (summaryTokens : Int)),
     acc.2.2 + 1)

/-- Model of `ContextManager._soft_compact` (context_manager.py lines 283-343):
compress the stale `full`-mode file references to summaries; a `file_compress`
event is recorded only when at least one file was compressed.  Returns the new
session state and the `tokens_saved` value the method returns. -/
def soft_compact (db : SessionDB) : SessionDB × Int :=
  let tokensBefore := get_message_tokens db
  let stale := get_stale_files db STALE_FILE_THRESHOLD (some "full")
  let folded := stale.foldl compressRef (db, 0, 0)
  let tokensAfter := get_message_tokens folded.1
  if folded.2.2 > 0 then
    (record_compaction folded.1 1 tokensBefore tokensAfter "file_compress"
      (some (.fileCompress folded.2.2 folded.2.1)), folded.2.1)
  else (folded.1, folded.2.1)

/-- The `keep_count` of `_hard_compact` (context_manager.py line 391):
`max(1, int(len(scored_messages) * RELEVANCE_KEEP_PERCENTAGE))` with the 0.50
default; `int(n * 0.5)` truncates, i.e. floor division by two. -/
def hardKeepCount (n : Nat) : Nat := max 1 (n / 2)

/-- The candidate ordering of `_hard_compact` (context_manager.py line 390):
`scored_messages.sort(key=lambda x: x[1], reverse=True)` — a stable sort by
score descending, so candidates with equal scores keep their original
(timestamp-ascending) order. -/
def sortByScoreDesc (l : List (Message × ℚ)) : List (Message × ℚ) :=
  sortBy (fun a b => decide (b.2 ≤ a.2)) l

/-- The candidate selection of `_hard_compact` (context_manager.py lines
389-393): sort the scored candidates by score descending, keep the top
`keep_count`, delete the rest.  Returns `(messages_to_keep, messages_to_delete)`. -/
def hardSelect (scored : List (Message × ℚ)) :
    List (Message × ℚ) × List (Message × ℚ) :=
  let sorted := sortByScoreDesc scored
  let keepCount := hardKeepCount scored.length
  (sorted.take keepCount, sorted.drop keepCount)

/-- Characters of a Lean string literal. -/
def strToChars (s : String) : List Char := s.data

/-- Python's `sep.join(parts)` for a one-character separator. -/
def joinSep (sep : Char) : List (List Char) → List Char
  | [] => []
  | [t] => t
  | t :: ts => t ++ sep :: joinSep sep ts

/-- Model of `ContextManager._create_fallback_summary` (context_manager.py
lines 590-623): the deterministic structural summary used when no LLM
summarizer is configured. -/
def create_fallback_summary (messages : List Message) : List Char :=
  let userCount := (messages.filter (fun m => m.role = "user")).length
  let assistantCount := (messages.filter (fun m => m.role = "assistant")).length
  let parts1 : List (List Char) :=
    [strToChars ("Conversation contained " ++ toString userCount
      ++ " user messages and " ++ toString assistantCount
      ++ " assistant responses.")]
  let parts2 := if messages.isEmpty then parts1
    else parts1 ++ [strToChars "Started with: "
      ++ ((messages.head?.map Message.content).getD []).take 200
      ++ strToChars "..."]
  let codeMessages := messages.filter (fun m => containsSub codeFence m.content)
  let parts3 := if codeMessages.isEmpty then parts2
    else parts2 ++ [strToChars ("Included " ++ toString codeMessages.length
      ++ " code-related exchanges.")]
  let fileMsgs := messages.filter (fun m =>
    containsSub atDotSlash m.content || containsSub atSlash m.content)
  let parts4 := if fileMsgs.isEmpty then parts3
    else parts3 ++ [strToChars ("Referenced files in " ++ toString fileMsgs.length
      ++ " messages.")]
  joinSep '\n' parts4

/-- Model of `ContextManager._emergency_compact` (context_manager.py lines
505-588): recompress all `full`-mode references via the stale query with
threshold 0, keep the newest `min(4, len)` messages, summarize and delete the
older ones, insert the summary as a system message with the sentinel header,
and record an `llm_summary` event.  `now` is the timestamp of the inserted
summary row; the external LLM summarizer is an optional callable, the
structural fallback being used when it is absent.  Returns the new state and
`tokens_before - tokens_after`. -/
def emergency_compact (db : SessionDB) (now : Nat)
    (llmSummarizer : Option (List Message → List Char)) : SessionDB × Int :=
  let tokensBefore := get_message_tokens db
  let stale := get_stale_files db 0 (some "full")
  let db1 := (stale.foldl compressRef (db, 0, 0)).1
  let messages := db1.messages
  let keepCount := min 4 messages.length
  let messagesToSummarize := messages.take (messages.length - keepCount)
  if messagesToSummarize.isEmpty then
    (db1, (tokensBefore : Int) - (get_message_tokens db1 : Int))
  else
    let summaryText := match llmSummarizer with
      | some f => f messagesToSummarize
      | none => create_fallback_summary messagesToSummarize
    let db2 := delete_messages db1 (messagesToSummarize.map Message.id)
    let summaryTokens := summaryText.length / 4
    let db3 := (save_message db2 "system"
      (strToChars "[Previous conversation summary]" ++ '\n' :: summaryText)
      summaryTokens true now).1
    let tokensAfter := get_message_tokens db3
    let db4 := record_compaction db3 3 tokensBefore tokensAfter "llm_summary"
      (some (.llmSummary messagesToSummarize.length summaryTokens))
    (db4, (tokensBefore : Int) - (tokensAfter : Int))

/-- Joins whitespace-separated tokens back into one content string with single
spaces: `joinTokens ts` is the content whose whitespace-separated token view is
`ts`.  Used to state the order-insensitivity of the lexical score (claim C9). -/
def joinTokens : List (List Char) → List Char
  | [] => []
  | [t] => t
  | t :: ts => t ++ ' ' :: joinTokens ts

/-! Theorems for claims C7, C8, C10. -/

/-- C7: for every `update_session(id, fields)` call, if any key of `fields` is
outside the whitelist {context, last_used, history_json, metadata_json,
max_context_tokens, system_prompt} the call fails with an invalid-argument
error before anything is written, so no session field is modified; if all keys
are whitelisted, the update is applied (every requested column set, in order). -/
theorem c7_update_session_whitelist (row : SessionRow)
    (updates : List (String × ColValue)) :
    ((∃ kv ∈ updates, kv.1 ∉ ALLOWED_UPDATE_COLUMNS) →
       ∃ msg, update_session row updates = .error msg)
    ∧ ((∀ kv ∈ updates, kv.1 ∈ ALLOWED_UPDATE_COLUMNS) →
       update_session row updates = .ok (updates.foldl applyColumnUpdate row)) := by
  constructor
  · rintro ⟨kv, hkv, hbad⟩
    have hne : updates.isEmpty = false := by
      cases updates with
      | nil => cases hkv
      | cons a l => rfl
    unfold update_session
    rw [hne]
    simp only [Bool.false_eq_true, if_false]
    cases hfind : updates.find? (fun kv => !(ALLOWED_UPDATE_COLUMNS.contains kv.1)) with
    | none =>
      exfalso
      have := List.find?_eq_none.mp hfind kv hkv
      simp only [Bool.not_eq_true', Bool.not_eq_false] at this
      exact hbad (by simpa using this)
    | some kv' => exact ⟨"Invalid column name: " ++ kv'.1, rfl⟩
  · intro hall
    unfold update_session
    cases hne : updates.isEmpty with
    | true =>
      have : updates = [] := by
        cases updates with
        | nil => rfl
        | cons a l => simp at hne
      subst this
      simp
    | false =>
      simp only [hne, Bool.false_eq_true, if_false]
      cases hfind : updates.find? (fun kv => !(ALLOWED_UPDATE_COLUMNS.contains kv.1)) with
      | none => rfl
      | some kv =>
        exfalso
        have hmem := List.mem_of_find?_eq_some hfind
        have hprop := List.find?_some hfind
        simp only [Bool.not_eq_true'] at hprop
        have hmemb : ALLOWED_UPDATE_COLUMNS.contains kv.1 = true :=
          List.elem_iff.mpr (hall kv hmem)
        rw [hprop] at hmemb
        exact Bool.false_ne_true hmemb

/-- Witness for C7 at concrete inputs: the key `session_id` is rejected with an
error, while a `context` update is applied. -/
theorem c7_update_session_whitelist_witness :
    (∃ msg, update_session
        ⟨"s", .null, .null, .null, .null, .null, .null, .null, .null⟩
        [("session_id", .text "evil")] = .error msg)
    ∧ update_session
        ⟨"s", .null, .null, .null, .null, .null, .null, .null, .null⟩
        [("context", .text "c")]
      = .ok ([("context", ColValue.text "c")].foldl applyColumnUpdate
          ⟨"s", .null, .null, .null, .null, .null, .null, .null, .null⟩) :=
  ⟨(c7_update_session_whitelist _ _).1 ⟨("session_id", .text "evil"), by decide⟩,
   (c7_update_session_whitelist _ _).2 (by decide)⟩

/-- C8: starting from the state right after a compaction (counter reset to 0
by `_record_compaction`), a sequence of strictly fewer than
`MIN_MESSAGES_BETWEEN_COMPACTION` (2) `add_message` calls records no further
compaction event, whatever levels the threshold ladder reports and whatever
instants the appends occur at: `_can_compact` sees a counter below 2 at every
one of those appends.  Hence the whole burst produces at most the one event
that started it. -/
theorem c8_cooldown_suppresses (t0 : Option Int) (inps : List AppendInput)
    (hshort : inps.length < MIN_MESSAGES_BETWEEN_COMPACTION) :
    (run_appends ⟨0, t0⟩ inps).2 = 0 := by
  match inps with
  | [] => rfl
  | [inp] =>
    simp only [run_appends, add_message_step, can_compact,
      MIN_MESSAGES_BETWEEN_COMPACTION]
    norm_num
  | a :: b :: rest =>
    exfalso
    simp [MIN_MESSAGES_BETWEEN_COMPACTION] at hshort
    omega

/-- Witness for C8: one append at level 3 immediately after a compaction at
instant 0 records nothing. -/
theorem c8_cooldown_suppresses_witness :
    ([⟨1000, 3, true⟩] : List AppendInput).length < MIN_MESSAGES_BETWEEN_COMPACTION
    ∧ (run_appends ⟨0, some 0⟩ ([⟨1000, 3, true⟩] : List AppendInput)).2 = 0 :=
  ⟨by decide, c8_cooldown_suppresses (some 0) [⟨1000, 3, true⟩] (by decide)⟩

/-- C10: `get_usage` is total even for degenerate configuration — whenever
`max_tokens ≤ 0` the division is guarded and the usage ratio is 0, so the
threshold ladder reports level 0 instead of dividing by zero. -/
theorem c10_get_usage_guarded (db : SessionDB) (maxTokens : Int)
    (hmax : maxTokens ≤ 0) :
    get_usage db maxTokens = 0 ∧ determine_level db maxTokens = 0 := by
  have husage : get_usage db maxTokens = 0 := by
    unfold get_usage
    simp [hmax]
  refine ⟨husage, ?_⟩
  unfold determine_level
  rw [husage]
  norm_num [EMERGENCY_THRESHOLD, HARD_THRESHOLD, SOFT_THRESHOLD]

/-- Witness for C10: a session holding 500 message tokens with
`max_tokens = 0` reports usage 0 and level 0. -/
theorem c10_get_usage_guarded_witness :
    (0 : Int) ≤ 0
    ∧ (get_usage ⟨[⟨1, "user", [], 500, 1, false⟩], [], [], 2⟩ 0 = 0
       ∧ determine_level ⟨[⟨1, "user", [], 500, 1, false⟩], [], [], 2⟩ 0 = 0) :=
  ⟨le_refl 0, c10_get_usage_guarded ⟨[⟨1, "user", [], 500, 1, false⟩], [], [], 2⟩ 0 (le_refl 0)⟩

/-- Helper: the boost chain is the identity on a message that earns no boost,
as long as the base score is at most 1. -/
theorem apply_relevance_boosts_of_none {α : Type} [LinearOrderedField α]
    (msg : Message) (b : α)
    (hrole : ¬ (msg.role = "assistant"))
    (hfence : containsSub codeFence msg.content = false)
    (hat1 : containsSub atDotSlash msg.content = false)
    (hat2 : containsSub atSlash msg.content = false)
    (hb : b ≤ 1) :
    apply_relevance_boosts msg b = b := by
  simp only [apply_relevance_boosts, hfence, hat1, hat2, if_neg hrole,
    Bool.false_eq_true, if_false, Bool.or_self]
  exact min_eq_right hb

/-- C3 as stated is false: the claim says a failed embedding (embedder returns
`None` for message or context) makes the scorer fall back to the boosted
Jaccard lexical score.  At this input the embedder is available but embedding
the empty message content fails (`embed` returns `None` on empty input);
`cosine_similarity` returns 0, `score_relevance` remaps it to 1/2 > 0, and the
scorer returns the boosted 1/2 from the semantic path — while the lexical
score of the same pair is 0. -/
theorem c3_fallback_counterexample :
    calculate_relevance true
        (fun s => if s.isEmpty then none else some [(1 : ℝ)])
        ⟨1, "user", [], 0, 1, false⟩ ['p', 'y', 't', 'h', 'o', 'n'] = 1 / 2
    ∧ calculate_keyword_relevance ⟨1, "user", [], 0, 1, false⟩
        ['p', 'y', 't', 'h', 'o', 'n'] = 0
    ∧ ((1 : ℝ) / 2) ≠ ((0 : ℚ) : ℝ) := by
  refine ⟨?_, ?_, by norm_num⟩
  · have hcos : cosine_similarity
        ((fun s : List Char => if s.isEmpty then none else some [(1 : ℝ)]) [])
        ((fun s : List Char => if s.isEmpty then none else some [(1 : ℝ)])
          ['p', 'y', 't', 'h', 'o', 'n']) = 0 := rfl
    simp only [calculate_relevance, score_relevance, hcos, if_true]
    rw [if_pos (by norm_num)]
    have harg : ((0 : ℝ) + 1) / 2 = 1 / 2 := by norm_num
    rw [harg]
    exact apply_relevance_boosts_of_none _ _ (by decide) (by decide) (by decide)
      (by decide) (by norm_num)
  · simp [calculate_keyword_relevance, keywordSet, findallWords, tokenizeAux]

/-- C3 amended: when the embedder is available but computing either embedding
fails (the embedder returns `None`), `cosine_similarity` returns 0,
`score_relevance` remaps it to 1/2, and since 1/2 > 0 the scorer returns the
boost-adjusted 1/2 from the semantic path; the lexical fallback is reached only
when the embedder is unavailable or the remapped semantic score is not
positive. -/
theorem c3_fallback_amended (embed : List Char → Option (List ℝ))
    (msg : Message) (context : List Char)
    (hfail : embed msg.content = none ∨ embed context = none) :
    calculate_relevance true embed msg context
      = apply_relevance_boosts msg ((1 : ℝ) / 2) := by
  have hcos : cosine_similarity (embed msg.content) (embed context) = 0 := by
    rcases hfail with h | h
    · rw [h]; cases embed context <;> rfl
    · rw [h]; cases embed msg.content <;> rfl
  simp only [calculate_relevance, score_relevance, hcos, if_true]
  rw [if_pos (by norm_num)]
  norm_num

/-- Witness for the amended C3 at a concrete failing embedding. -/
theorem c3_fallback_amended_witness :
    ((fun s : List Char => if s.isEmpty then (none : Option (List ℝ)) else some [1]) [] = none
      ∨ (fun s : List Char => if s.isEmpty then (none : Option (List ℝ)) else some [1]) ['p'] = none)
    ∧ calculate_relevance true
        (fun s => if s.isEmpty then (none : Option (List ℝ)) else some [1])
        ⟨2, "assistant", [], 0, 1, false⟩ ['p']
      = apply_relevance_boosts ⟨2, "assistant", [], 0, 1, false⟩ ((1 : ℝ) / 2) :=
  ⟨Or.inl rfl,
   c3_fallback_amended (fun s => if s.isEmpty then none else some [1])
     ⟨2, "assistant", [], 0, 1, false⟩ ['p'] (Or.inl rfl)⟩

/-! Claim C9: the lexical score is insensitive to the order of the
whitespace-separated tokens of the message content. -/

/-- Scanning distributes over a space separator: the space is never a word
character, so the run accumulated on its left is flushed there and scanning
resumes fresh on the right. -/
theorem tokenizeAux_sep (a b cur : List Char) :
    tokenizeAux (a ++ ' ' :: b) cur = tokenizeAux a cur ++ tokenizeAux b [] := by
  induction a generalizing cur with
  | nil =>
    cases cur with
    | nil => simp [tokenizeAux, show isWordChar ' ' = false from by decide]
    | cons c cs => simp [tokenizeAux, show isWordChar ' ' = false from by decide]
  | cons x a ih =>
    cases hx : isWordChar x with
    | true => simp [tokenizeAux, hx, ih]
    | false =>
      cases cur with
      | nil => simp [tokenizeAux, hx, ih]
      | cons c cs => simp [tokenizeAux, hx, ih]

/-- Lowercasing commutes with the spaced join (a space lowercases to itself). -/
theorem joinTokens_map_toLower (ts : List (List Char)) :
    (joinTokens ts).map Char.toLower = joinTokens (ts.map (List.map Char.toLower)) := by
  induction ts with
  | nil => rfl
  | cons t rest ih =>
    cases rest with
    | nil => rfl
    | cons u rest' =>
      show (t ++ ' ' :: joinTokens (u :: rest')).map Char.toLower
        = t.map Char.toLower ++ ' ' :: joinTokens ((u :: rest').map (List.map Char.toLower))
      rw [List.map_append, List.map_cons, show Char.toLower ' ' = ' ' from by decide, ih]

/-- Scanning a spaced join of tokens yields the concatenation of the per-token
scans. -/
theorem tokenizeAux_joinTokens (ts : List (List Char)) :
    tokenizeAux (joinTokens ts) [] = (ts.map (fun t => tokenizeAux t [])).flatten := by
  induction ts with
  | nil => rfl
  | cons t rest ih =>
    cases rest with
    | nil => simp [joinTokens]
    | cons u rest' =>
      show tokenizeAux (t ++ ' ' :: joinTokens (u :: rest')) []
        = ((t :: u :: rest').map (fun t => tokenizeAux t [])).flatten
      rw [tokenizeAux_sep, ih]
      simp

/-- Membership in the keyword set of a spaced join is membership in some
token's keyword list. -/
theorem mem_keywordSet_joinTokens (x : List Char) (ts : List (List Char)) :
    x ∈ keywordSet (joinTokens ts) ↔ ∃ t ∈ ts, x ∈ findallWords t := by
  simp only [keywordSet, List.mem_toFinset, findallWords, List.mem_filter,
    joinTokens_map_toLower, tokenizeAux_joinTokens, List.mem_flatten, List.mem_map]
  constructor
  · rintro ⟨⟨l, ⟨a, ⟨t, ht, rfl⟩, rfl⟩, hx⟩, hp⟩
    exact ⟨t, ht, hx, hp⟩
  · rintro ⟨t, ht, hx, hp⟩
    exact ⟨⟨tokenizeAux (List.map Char.toLower t) [],
      ⟨List.map Char.toLower t, ⟨t, ht, rfl⟩, rfl⟩, hx⟩, hp⟩

/-- Permuting the tokens leaves the keyword set unchanged. -/
theorem keywordSet_joinTokens_perm {ts ts' : List (List Char)}
    (h : ts.Perm ts') :
    keywordSet (joinTokens ts) = keywordSet (joinTokens ts') := by
  ext x
  rw [mem_keywordSet_joinTokens, mem_keywordSet_joinTokens]
  constructor <;> rintro ⟨t, ht, hx⟩
  · exact ⟨t, h.mem_iff.mp ht, hx⟩
  · exact ⟨t, h.mem_iff.mpr ht, hx⟩

/-- A prefix is a contiguous sublist. -/
theorem sub_of_pre {α : Type} {p l : List α} (h : p <+: l) : p <:+: l := by
  rcases h with ⟨t, rfl⟩
  exact ⟨[], t, rfl⟩

/-- Contiguous-sublist containment survives a new head. -/
theorem sub_cons {α : Type} {p l : List α} (c : α) (h : p <:+: l) :
    p <:+: c :: l := by
  rcases h with ⟨s, t, rfl⟩
  exact ⟨c :: s, t, rfl⟩

/-- Contiguous-sublist containment survives appending on the right. -/
theorem sub_append_left {α : Type} {p a : List α} (b : List α) (h : p <:+: a) :
    p <:+: a ++ b := by
  rcases h with ⟨s, t, rfl⟩
  exact ⟨s, t ++ b, by simp⟩

/-- Contiguous-sublist containment survives appending on the left. -/
theorem sub_append_right {α : Type} {p b : List α} (a : List α) (h : p <:+: b) :
    p <:+: a ++ b := by
  rcases h with ⟨s, t, rfl⟩
  exact ⟨a ++ s, t, by simp⟩

/-- A space-free prefix of `a ++ ' ' :: b` is a prefix of `a`. -/
theorem pre_through_sep {p a : List Char} (b : List Char)
    (h : p <+: a ++ ' ' :: b) (hsp : ' ' ∉ p) : p <+: a := by
  induction p generalizing a with
  | nil => exact ⟨a, rfl⟩
  | cons q p' ih =>
    cases a with
    | nil =>
      rw [List.nil_append] at h
      rcases List.cons_prefix_cons.mp h with ⟨rfl, -⟩
      exact absurd (List.mem_cons_self _ _) hsp
    | cons y a' =>
      rcases List.cons_prefix_cons.mp h with ⟨rfl, htail⟩
      have hsp' : ' ' ∉ p' := fun hm => hsp (List.mem_cons_of_mem _ hm)
      exact List.cons_prefix_cons.mpr ⟨rfl, ih htail hsp'⟩

/-- A nonempty space-free pattern occurs in `a ++ ' ' :: b` exactly when it
occurs in `a` or in `b`: an occurrence cannot straddle the separator. -/
theorem sub_through_sep {p : List Char} (a b : List Char)
    (hne : p ≠ []) (hsp : ' ' ∉ p) :
    p <:+: a ++ ' ' :: b ↔ p <:+: a ∨ p <:+: b := by
  constructor
  · intro h
    induction a with
    | nil =>
      rw [List.nil_append] at h
      rcases List.infix_cons_iff.mp h with hpre | hb
      · exfalso
        cases p with
        | nil => exact hne rfl
        | cons q p' =>
          rcases List.cons_prefix_cons.mp hpre with ⟨rfl, -⟩
          exact hsp (List.mem_cons_self _ _)
      · exact Or.inr hb
    | cons x a' ih =>
      rcases List.infix_cons_iff.mp h with hpre | hsub
      · exact Or.inl (sub_of_pre (pre_through_sep b hpre hsp))
      · rcases ih hsub with h1 | h2
        · exact Or.inl (sub_cons x h1)
        · exact Or.inr h2
  · rintro (h | h)
    · exact sub_append_left _ h
    · exact sub_append_right _ (sub_cons ' ' h)

/-- A nonempty space-free pattern occurs in a spaced join exactly when it
occurs in one of the tokens. -/
theorem sub_joinTokens {p : List Char} (ts : List (List Char))
    (hne : p ≠ []) (hsp : ' ' ∉ p) :
    p <:+: joinTokens ts ↔ ∃ t ∈ ts, p <:+: t := by
  induction ts with
  | nil =>
    simp only [joinTokens, List.infix_nil]
    simp [hne]
  | cons t rest ih =>
    cases rest with
    | nil => simp [joinTokens]
    | cons u rest' =>
      rw [show joinTokens (t :: u :: rest') = t ++ ' ' :: joinTokens (u :: rest') from rfl,
        sub_through_sep _ _ hne hsp, ih]
      constructor
      · rintro (h | ⟨v, hv, hx⟩)
        · exact ⟨t, List.mem_cons_self _ _, h⟩
        · exact ⟨v, List.mem_cons_of_mem _ hv, hx⟩
      · rintro ⟨v, hv, hx⟩
        rcases List.mem_cons.mp hv with rfl | hv'
        · exact Or.inl hx
        · exact Or.inr ⟨v, hv', hx⟩

/-- Permuting tokens does not change whether a nonempty space-free pattern
occurs in the joined content. -/
theorem containsSub_joinTokens_perm {p : List Char} {ts ts' : List (List Char)}
    (h : ts.Perm ts') (hne : p ≠ []) (hsp : ' ' ∉ p) :
    containsSub p (joinTokens ts) = containsSub p (joinTokens ts') := by
  unfold containsSub
  apply decide_eq_decide.mpr
  rw [sub_joinTokens ts hne hsp, sub_joinTokens ts' hne hsp]
  constructor <;> rintro ⟨t, ht, hx⟩
  · exact ⟨t, h.mem_iff.mp ht, hx⟩
  · exact ⟨t, h.mem_iff.mpr ht, hx⟩

/-- The boost chain only looks at the role and the three containment tests, so
it is identical on two messages agreeing on those. -/
theorem apply_relevance_boosts_congr {α : Type} [LinearOrderedField α]
    (i i' tk tk' time time' : Nat) (sm sm' : Bool) (role : String)
    (c c' : List Char) (b : α)
    (hf : containsSub codeFence c = containsSub codeFence c')
    (h1 : containsSub atDotSlash c = containsSub atDotSlash c')
    (h2 : containsSub atSlash c = containsSub atSlash c') :
    apply_relevance_boosts (⟨i, role, c, tk, time, sm⟩ : Message) b
      = apply_relevance_boosts (⟨i', role, c', tk', time', sm'⟩ : Message) b := by
  simp only [apply_relevance_boosts, hf, h1, h2]

/-- C9: the lexical (keyword) relevance score is order-insensitive — permuting
the whitespace-separated tokens of the message content leaves
`_calculate_keyword_relevance` unchanged, since both the keyword set (the
regex extracts the same token set) and the boost containment tests are
invariant under the permutation.  The message id, token count, timestamp and
summary flag are also irrelevant and may differ. -/
theorem c9_keyword_score_order_insensitive (i i' tk tk' time time' : Nat)
    (sm sm' : Bool) (role : String) (ts ts' : List (List Char))
    (h : ts.Perm ts') (context : List Char) :
    calculate_keyword_relevance (⟨i, role, joinTokens ts, tk, time, sm⟩ : Message) context
      = calculate_keyword_relevance (⟨i', role, joinTokens ts', tk', time', sm'⟩ : Message) context := by
  have hks : keywordSet (joinTokens ts) = keywordSet (joinTokens ts') :=
    keywordSet_joinTokens_perm h
  have hf : containsSub codeFence (joinTokens ts) = containsSub codeFence (joinTokens ts') :=
    containsSub_joinTokens_perm h (by decide) (by decide)
  have h1 : containsSub atDotSlash (joinTokens ts) = containsSub atDotSlash (joinTokens ts') :=
    containsSub_joinTokens_perm h (by decide) (by decide)
  have h2 : containsSub atSlash (joinTokens ts) = containsSub atSlash (joinTokens ts') :=
    containsSub_joinTokens_perm h (by decide) (by decide)
  simp only [calculate_keyword_relevance, hks]
  by_cases hempty : keywordSet (joinTokens ts') = ∅ ∨ keywordSet context = ∅
  · rw [if_pos hempty, if_pos hempty]
  · rw [if_neg hempty, if_neg hempty]
    by_cases hcard : (keywordSet (joinTokens ts') ∪ keywordSet context).card = 0
    · rw [if_pos hcard, if_pos hcard]
    · rw [if_neg hcard, if_neg hcard]
      exact apply_relevance_boosts_congr i i' tk tk' time time' sm sm' role _ _ _ hf h1 h2

/-- Witness for C9: swapping the two tokens of "abc def" does not change its
lexical score against the context "abc". -/
theorem c9_keyword_score_order_insensitive_witness :
    (([['a', 'b', 'c'], ['d', 'e', 'f']] : List (List Char)).Perm
        [['d', 'e', 'f'], ['a', 'b', 'c']])
    ∧ calculate_keyword_relevance
        (⟨1, "user", joinTokens [['a', 'b', 'c'], ['d', 'e', 'f']], 0, 1, false⟩ : Message)
        ['a', 'b', 'c']
      = calculate_keyword_relevance
        (⟨1, "user", joinTokens [['d', 'e', 'f'], ['a', 'b', 'c']], 0, 1, false⟩ : Message)
        ['a', 'b', 'c'] :=
  ⟨by decide,
   c9_keyword_score_order_insensitive 1 1 0 0 1 1 false false "user" _ _ (by decide) _⟩

/-! Claims C2 and C6: emergency compaction. -/

/-- The stale-file query with threshold 0 always returns the empty list: the
recent-ids query runs with `LIMIT 0`, which yields no rows, and
`get_stale_files` returns early on an empty recent-ids list
(session_db.py lines 893-902). -/
theorem get_stale_files_zero (db : SessionDB) (f : Option String) :
    get_stale_files db 0 f = [] := by
  simp [get_stale_files, recentMessageIds]

/-- Deleting the ids of the first `k` rows of a message list with no duplicate
ids keeps exactly the remaining rows, untouched and in order. -/
theorem filter_not_mem_take (k : Nat) (ms : List Message)
    (hnodup : (ms.map Message.id).Nodup) :
    ms.filter (fun m => !(((ms.take k).map Message.id).contains m.id))
      = ms.drop k := by
  have hsplit := List.take_append_drop k ms
  set p := fun m : Message => !(((ms.take k).map Message.id).contains m.id) with hp
  have h1 : (ms.take k).filter p = [] := by
    rw [List.filter_eq_nil_iff]
    intro m hm
    have hin : m.id ∈ (ms.take k).map Message.id := List.mem_map_of_mem Message.id hm
    have hc : ((ms.take k).map Message.id).contains m.id = true := List.elem_iff.mpr hin
    simp only [hp]
    rw [hc]
    simp
  have h2 : (ms.drop k).filter p = ms.drop k := by
    rw [List.filter_eq_self]
    intro m hm
    have hnd : ((ms.take k).map Message.id ++ (ms.drop k).map Message.id).Nodup := by
      rw [← List.map_append, hsplit]
      exact hnodup
    have hdisj := List.disjoint_of_nodup_append hnd
    have hnot : m.id ∉ (ms.take k).map Message.id := fun hin =>
      hdisj hin (List.mem_map_of_mem Message.id hm)
    simp only [hp]
    cases hc : ((ms.take k).map Message.id).contains m.id with
    | false => rfl
    | true => exact absurd (List.elem_iff.mp hc) hnot
  conv_lhs => rw [← hsplit]
  rw [List.filter_append, h1, h2, List.nil_append]

/-- C2 is refuted by the code: on a session holding a single message (id 1)
that carries the file reference `/a.py` in `full` mode with 1000 tokens, the
recompression step of emergency compaction — the stale query with threshold 0 —
returns no files, and after `_emergency_compact` the reference is still in
`full` mode with its original tokens, contradicting "no file reference of the
session remains in full mode". -/
theorem c2_emergency_leaves_full_ref :
    get_stale_files
        ⟨[⟨1, "user", [], 100, 1, false⟩], [⟨1, 1, "/a.py", "full", 1000⟩], [], 2⟩
        0 (some "full") = []
    ∧ (emergency_compact
        ⟨[⟨1, "user", [], 100, 1, false⟩], [⟨1, 1, "/a.py", "full", 1000⟩], [], 2⟩
        10 none).1.fileRefs = [⟨1, 1, "/a.py", "full", 1000⟩] := by
  constructor
  · exact get_stale_files_zero _ _
  · rfl

/-- C6: after an emergency (Level 3) compaction on a session with more than
`EMERGENCY_KEEP` (4) messages, the newest 4 messages survive byte-identical and
in order, every older message is deleted, and exactly one new message is
inserted after them, with role `system`, `is_summary` true and content
beginning with the sentinel "[Previous conversation summary]".  The
no-duplicate-ids hypothesis is the `messages.id` PRIMARY KEY invariant. -/
theorem c6_emergency_replaces_older (db : SessionDB) (now : Nat)
    (summarizer : Option (List Message → List Char))
    (h4 : 4 < db.messages.length)
    (hnodup : (db.messages.map Message.id).Nodup) :
    ∃ summaryMsg : Message,
      (emergency_compact db now summarizer).1.messages
        = db.messages.drop (db.messages.length - 4) ++ [summaryMsg]
      ∧ summaryMsg.role = "system"
      ∧ summaryMsg.isSummary = true
      ∧ strToChars "[Previous conversation summary]" <+: summaryMsg.content := by
  have hstale : get_stale_files db 0 (some "full") = [] := get_stale_files_zero db _
  have hkeep : min 4 db.messages.length = 4 := min_eq_left (le_of_lt h4)
  have hlen : (db.messages.take (db.messages.length - 4)).length
      = db.messages.length - 4 := by
    rw [List.length_take]
    omega
  have hne : (db.messages.take (db.messages.length - 4)).isEmpty = false := by
    cases htk : db.messages.take (db.messages.length - 4) with
    | nil =>
      rw [htk] at hlen
      simp at hlen
      omega
    | cons a l => rfl
  unfold emergency_compact
  rw [hstale]
  simp only [List.foldl_nil, hkeep, hne, Bool.false_eq_true, if_false]
  refine ⟨⟨db.nextMessageId, "system",
      strToChars "[Previous conversation summary]" ++ '\n' ::
        (match summarizer with
          | some f => f (List.take (db.messages.length - 4) db.messages)
          | none => create_fallback_summary (List.take (db.messages.length - 4) db.messages)),
      (match summarizer with
        | some f => f (List.take (db.messages.length - 4) db.messages)
        | none => create_fallback_summary (List.take (db.messages.length - 4) db.messages)).length / 4,
      now, true⟩, ?_, rfl, rfl,
      ⟨'\n' :: (match summarizer with
        | some f => f (List.take (db.messages.length - 4) db.messages)
        | none => create_fallback_summary (List.take (db.messages.length - 4) db.messages)), rfl⟩⟩
  simp only [record_compaction, save_message, delete_messages]
  rw [filter_not_mem_take _ _ hnodup]

/-- Witness for C6: a session of five 10-token messages, no summarizer. -/
theorem c6_emergency_replaces_older_witness :
    4 < (⟨[⟨1, "user", [], 10, 1, false⟩, ⟨2, "assistant", [], 10, 2, false⟩,
          ⟨3, "user", [], 10, 3, false⟩, ⟨4, "assistant", [], 10, 4, false⟩,
          ⟨5, "user", [], 10, 5, false⟩], [], [], 6⟩ : SessionDB).messages.length
    ∧ ((⟨[⟨1, "user", [], 10, 1, false⟩, ⟨2, "assistant", [], 10, 2, false⟩,
          ⟨3, "user", [], 10, 3, false⟩, ⟨4, "assistant", [], 10, 4, false⟩,
          ⟨5, "user", [], 10, 5, false⟩], [], [], 6⟩ : SessionDB).messages.map Message.id).Nodup
    ∧ ∃ summaryMsg : Message,
      (emergency_compact ⟨[⟨1, "user", [], 10, 1, false⟩, ⟨2, "assistant", [], 10, 2, false⟩,
          ⟨3, "user", [], 10, 3, false⟩, ⟨4, "assistant", [], 10, 4, false⟩,
          ⟨5, "user", [], 10, 5, false⟩], [], [], 6⟩ 9 none).1.messages
        = (⟨[⟨1, "user", [], 10, 1, false⟩, ⟨2, "assistant", [], 10, 2, false⟩,
          ⟨3, "user", [], 10, 3, false⟩, ⟨4, "assistant", [], 10, 4, false⟩,
          ⟨5, "user", [], 10, 5, false⟩], [], [], 6⟩ : SessionDB).messages.drop
            ((⟨[⟨1, "user", [], 10, 1, false⟩, ⟨2, "assistant", [], 10, 2, false⟩,
          ⟨3, "user", [], 10, 3, false⟩, ⟨4, "assistant", [], 10, 4, false⟩,
          ⟨5, "user", [], 10, 5, false⟩], [], [], 6⟩ : SessionDB).messages.length - 4)
          ++ [summaryMsg]
      ∧ summaryMsg.role = "system"
      ∧ summaryMsg.isSummary = true
      ∧ strToChars "[Previous conversation summary]" <+: summaryMsg.content :=
  ⟨by decide, by decide,
   c6_emergency_replaces_older
     ⟨[⟨1, "user", [], 10, 1, false⟩, ⟨2, "assistant", [], 10, 2, false⟩,
       ⟨3, "user", [], 10, 3, false⟩, ⟨4, "assistant", [], 10, 4, false⟩,
       ⟨5, "user", [], 10, 5, false⟩], [], [], 6⟩ 9 none (by decide) (by decide)⟩

/-! Claims C4 and C5: hard-compaction candidate selection. -/

/-- Inserting adds one to the length. -/
theorem insertBy_length {α : Type} (le : α → α → Bool) (x : α) (l : List α) :
    (insertBy le x l).length = l.length + 1 := by
  induction l with
  | nil => rfl
  | cons y ys ih =>
    cases hc : le x y with
    | true => simp [insertBy, hc]
    | false => simp [insertBy, hc, ih]

/-- The stable sort preserves length. -/
theorem sortBy_length {α : Type} (le : α → α → Bool) (l : List α) :
    (sortBy le l).length = l.length := by
  induction l with
  | nil => rfl
  | cons x xs ih => simp [sortBy, insertBy_length, ih]

/-- C4 is refuted by the code on an odd candidate count: with three candidates
the code keeps `max(1, int(3 * 0.5)) = 1` candidate, not the claimed
`⌈3 · 0.5⌉ = (3 + 1) / 2 = 2`. -/
theorem c4_keep_count_counterexample :
    (hardSelect [(⟨1, "user", [], 0, 1, false⟩, 0), (⟨2, "user", [], 0, 2, false⟩, 0),
                 (⟨3, "user", [], 0, 3, false⟩, 0)]).1.length = 1
    ∧ (1 : Nat) ≠ max 1 ((3 + 1) / 2) := by
  have hsort : sortByScoreDesc
      [(⟨1, "user", [], 0, 1, false⟩, 0), (⟨2, "user", [], 0, 2, false⟩, 0),
       (⟨3, "user", [], 0, 3, false⟩, 0)]
      = [(⟨1, "user", [], 0, 1, false⟩, 0), (⟨2, "user", [], 0, 2, false⟩, 0),
         (⟨3, "user", [], 0, 3, false⟩, 0)] := by
    simp [sortByScoreDesc, sortBy, insertBy]
  constructor
  · simp [hardSelect, hardKeepCount, hsort]
  · decide

/-- C4 amended: for every nonempty candidate list, the number of candidates
kept by hard compaction equals `max(1, ⌊|candidates| / 2⌋)` — the floor, not
the ceiling, of `RELEVANCE_KEEP_PERCENTAGE · |candidates|` — and the rest are
deleted; in particular an odd candidate count `n ≥ 3` keeps `(n - 1) / 2`. -/
theorem c4_keep_count_floor (scored : List (Message × ℚ)) (hne : scored ≠ []) :
    (hardSelect scored).1.length = max 1 (scored.length / 2)
    ∧ (hardSelect scored).2.length = scored.length - max 1 (scored.length / 2) := by
  have hlen : (sortByScoreDesc scored).length = scored.length :=
    sortBy_length _ _
  have hpos : scored.length ≠ 0 := by
    intro h0
    exact hne (List.length_eq_zero.mp h0)
  constructor
  · show (List.take (hardKeepCount scored.length) (sortByScoreDesc scored)).length = _
    rw [List.length_take, hlen]
    unfold hardKeepCount
    omega
  · show (List.drop (hardKeepCount scored.length) (sortByScoreDesc scored)).length = _
    rw [List.length_drop, hlen]
    unfold hardKeepCount
    omega

/-- Witness for the amended C4 on a concrete three-candidate list. -/
theorem c4_keep_count_floor_witness :
    ([(⟨1, "user", [], 0, 1, false⟩, (0 : ℚ)), (⟨2, "user", [], 0, 2, false⟩, 0),
      (⟨3, "user", [], 0, 3, false⟩, 0)] : List (Message × ℚ)) ≠ []
    ∧ ((hardSelect [(⟨1, "user", [], 0, 1, false⟩, (0 : ℚ)), (⟨2, "user", [], 0, 2, false⟩, 0),
      (⟨3, "user", [], 0, 3, false⟩, 0)]).1.length = max 1 (([(⟨1, "user", [], 0, 1, false⟩, (0 : ℚ)), (⟨2, "user", [], 0, 2, false⟩, 0),
      (⟨3, "user", [], 0, 3, false⟩, 0)] : List (Message × ℚ)).length / 2)
    ∧ (hardSelect [(⟨1, "user", [], 0, 1, false⟩, (0 : ℚ)), (⟨2, "user", [], 0, 2, false⟩, 0),
      (⟨3, "user", [], 0, 3, false⟩, 0)]).2.length = ([(⟨1, "user", [], 0, 1, false⟩, (0 : ℚ)), (⟨2, "user", [], 0, 2, false⟩, 0),
      (⟨3, "user", [], 0, 3, false⟩, 0)] : List (Message × ℚ)).length - max 1 (([(⟨1, "user", [], 0, 1, false⟩, (0 : ℚ)), (⟨2, "user", [], 0, 2, false⟩, 0),
      (⟨3, "user", [], 0, 3, false⟩, 0)] : List (Message × ℚ)).length / 2)) :=
  ⟨by decide,
   c4_keep_count_floor [(⟨1, "user", [], 0, 1, false⟩, (0 : ℚ)), (⟨2, "user", [], 0, 2, false⟩, 0),
     (⟨3, "user", [], 0, 3, false⟩, 0)] (by decide)⟩

/-- The stable insertion used by the score sort interacts with score-equality
filters as follows: inserting `x` prepends it to the filtered residue exactly
when `x` carries the filtered score, because `x` is placed before the first
element whose score is not above `x`'s. -/
theorem filter_insertBy_score (x : Message × ℚ) (l : List (Message × ℚ)) (s : ℚ) :
    (insertBy (fun a b => decide (b.2 ≤ a.2)) x l).filter (fun p => decide (p.2 = s))
      = if x.2 = s
        then x :: l.filter (fun p => decide (p.2 = s))
        else l.filter (fun p => decide (p.2 = s)) := by
  induction l with
  | nil =>
    by_cases h : x.2 = s <;> simp [insertBy, h]
  | cons y ys ih =>
    by_cases hle : y.2 ≤ x.2
    · by_cases h : x.2 = s
      · have hle' : y.2 ≤ s := h ▸ hle
        simp [insertBy, hle, hle', h]
      · simp [insertBy, hle, h]
    · have hstep : insertBy (fun a b => decide (b.2 ≤ a.2)) x (y :: ys)
          = y :: insertBy (fun a b => decide (b.2 ≤ a.2)) x ys := by
        simp [insertBy, hle]
      rw [hstep, List.filter_cons, List.filter_cons, ih]
      by_cases h : x.2 = s
      · have hy : ¬ (y.2 = s) := by
          intro hys
          exact hle (by rw [hys, h])
        simp [h, hy]
      · simp [h]

/-- C5 amended: the candidate ordering preserves the original relative order of
equal-score candidates — for every score value, filtering the sorted list down
to the candidates carrying it returns them exactly in candidate order.  Since
`_hard_compact` builds the candidate list in timestamp-ascending order and then
keeps a prefix of the sort, among equal scores it is the OLDER message that is
preferred for keeping, not the newer one. -/
theorem c5_ties_keep_candidate_order (l : List (Message × ℚ)) (s : ℚ) :
    (sortByScoreDesc l).filter (fun p => decide (p.2 = s))
      = l.filter (fun p => decide (p.2 = s)) := by
  induction l with
  | nil => rfl
  | cons x xs ih =>
    show (insertBy (fun a b => decide (b.2 ≤ a.2)) x (sortByScoreDesc xs)).filter
        (fun p => decide (p.2 = s)) = _
    rw [filter_insertBy_score, ih, List.filter_cons]
    by_cases h : x.2 = s
    · simp [h]
    · simp [h]

/-- C5 is refuted by the code: two candidates with equal scores, the first
(id 1) older than the second (id 2).  The stable descending sort keeps them in
candidate order, `keep_count = max(1, int(2 · 0.5)) = 1`, so the OLDER message
is kept and the newer one is deleted — the opposite of the claimed
preference for the newer message. -/
theorem c5_tie_break_counterexample :
    ((hardSelect [(⟨1, "user", [], 0, 1, false⟩, (1 : ℚ) / 2),
        (⟨2, "user", [], 0, 2, false⟩, 1 / 2)]).1.map (fun p => p.1.id) = [1])
    ∧ ((hardSelect [(⟨1, "user", [], 0, 1, false⟩, (1 : ℚ) / 2),
        (⟨2, "user", [], 0, 2, false⟩, 1 / 2)]).2.map (fun p => p.1.id) = [2])
    ∧ (⟨1, "user", [], 0, 1, false⟩ : Message).timestamp
        < (⟨2, "user", [], 0, 2, false⟩ : Message).timestamp := by
  have hsort : sortByScoreDesc [(⟨1, "user", [], 0, 1, false⟩, (1 : ℚ) / 2),
        (⟨2, "user", [], 0, 2, false⟩, 1 / 2)]
      = [(⟨1, "user", [], 0, 1, false⟩, (1 : ℚ) / 2),
         (⟨2, "user", [], 0, 2, false⟩, 1 / 2)] := by
    simp [sortByScoreDesc, sortBy, insertBy]
  have hsel : hardSelect [(⟨1, "user", [], 0, 1, false⟩, (1 : ℚ) / 2),
        (⟨2, "user", [], 0, 2, false⟩, 1 / 2)]
      = ([(⟨1, "user", [], 0, 1, false⟩, (1 : ℚ) / 2)],
         [(⟨2, "user", [], 0, 2, false⟩, (1 : ℚ) / 2)]) := by
    simp only [hardSelect, hardKeepCount]
    rw [hsort]
    rfl
  refine ⟨?_, ?_, by decide⟩
  · rw [hsel]
    rfl
  · rw [hsel]
    rfl

/-! Claim C1: soft compaction on a single stale full-mode file reference. -/

/-- The compression loop never touches the `messages` table. -/
theorem foldl_compressRef_messages (l : List FileRef) (acc : SessionDB × Int × Nat) :
    (l.foldl compressRef acc).1.messages = acc.1.messages := by
  induction l generalizing acc with
  | nil => rfl
  | cons fr l ih =>
    rw [List.foldl_cons, ih]
    unfold compressRef
    cases (get_file_references acc.1 fr.filePath).head? with
    | none => rfl
    | some latest => rfl

/-- Soft compaction never touches the `messages` table: it only rewrites
file-reference rows and appends an audit row, so the message-token total it
reports before and after are always equal. -/
theorem soft_compact_messages (db : SessionDB) :
    (soft_compact db).1.messages = db.messages := by
  simp only [soft_compact]
  split
  · exact foldl_compressRef_messages _ _
  · exact foldl_compressRef_messages _ _

/-- C1 amended: soft compaction on a session whose only file reference `r` is
in `full` mode with 1000 tokens and is stale (its owning message exists but is
not among the 3 newest) updates that reference to mode `summary` with
`max(50, 1000 // 10) = 100` tokens and records exactly one `file_compress`
event whose details report `tokens_saved = 900`; but the event's
`tokens_freed` field is 0, not the claimed 900, because the recompression does
not change any message row and `tokens_freed` is computed from the
message-token totals before and after.  The method still returns 900. -/
theorem c1_soft_compact_stale_file (db : SessionDB) (r : FileRef)
    (hrefs : db.fileRefs = [r])
    (hmode : r.mode = "full")
    (htok : r.tokens = 1000)
    (hmem : memMessage db r.messageId = true)
    (hstale : (recentMessageIds db STALE_FILE_THRESHOLD).contains r.messageId = false)
    (hne : db.messages ≠ []) :
    (soft_compact db).1.fileRefs = [{ r with mode := "summary", tokens := 100 }]
    ∧ (soft_compact db).1.compactions = db.compactions ++
        [{ level := 1, tokensBefore := get_message_tokens db,
           tokensAfter := get_message_tokens db, tokensFreed := 0,
           strategy := "file_compress",
           details := some (.fileCompress 1 900) }]
    ∧ (soft_compact db).2 = 900 := by
  have hrec : (recentMessageIds db STALE_FILE_THRESHOLD).isEmpty = false := by
    unfold recentMessageIds
    cases hms : db.messages.reverse with
    | nil => exact absurd (List.reverse_eq_nil_iff.mp hms) hne
    | cons m rest => rfl
  have hjoined : joinedRefs db = [r] := by
    unfold joinedRefs
    rw [hrefs]
    simp [hmem]
  have hlatest : latestRefPerPath [r] = [r] := by
    unfold latestRefPerPath maxByMessageId
    simp
  have hstalefiles : get_stale_files db STALE_FILE_THRESHOLD (some "full") = [r] := by
    simp only [get_stale_files]
    rw [hrec]
    simp only [Bool.false_eq_true, if_false]
    rw [hjoined]
    simp only [List.filter_cons, List.filter_nil, hmode]
    simp only [decide_True, if_pos]
    rw [hlatest]
    have hstale' : r.messageId ∉ recentMessageIds db STALE_FILE_THRESHOLD := by
      intro hin
      have hc : (recentMessageIds db STALE_FILE_THRESHOLD).contains r.messageId = true :=
        List.elem_iff.mpr hin
      rw [hc] at hstale
      simp at hstale
    simp [hstale']
  have hfr : get_file_references db r.filePath = [r] := by
    unfold get_file_references
    rw [hjoined]
    simp [sortBy, insertBy]
  have hhead : (get_file_references db r.filePath).head? = some r := by
    rw [hfr]
    rfl
  have hcomp : compressRef (db, (0 : Int), (0 : Nat)) r
      = (update_file_reference_mode db r.id "summary" 100, (900 : Int), (1 : Nat)) := by
    unfold compressRef
    dsimp only
    rw [hhead]
    dsimp only
    rw [htok]
    norm_num
  unfold soft_compact
  rw [hstalefiles]
  simp only [List.foldl_cons, List.foldl_nil]
  rw [hcomp]
  dsimp only
  rw [if_pos (by norm_num : (1 : Nat) > 0)]
  refine ⟨?_, ?_, rfl⟩
  · show (update_file_reference_mode db r.id "summary" 100).fileRefs = _
    unfold update_file_reference_mode
    rw [hrefs]
    simp
  · show (record_compaction (update_file_reference_mode db r.id "summary" 100) 1
        (get_message_tokens db)
        (get_message_tokens (update_file_reference_mode db r.id "summary" 100))
        "file_compress" (some (.fileCompress 1 900))).compactions = _
    have hmsg : get_message_tokens (update_file_reference_mode db r.id "summary" 100)
        = get_message_tokens db := rfl
    rw [hmsg]
    unfold record_compaction update_file_reference_mode
    simp

/-- C1 as stated is false on the recorded event's `tokens_freed`: on a session
of six 100-token messages whose first message carries the only file reference
`/a.py` (full, 1000 tokens, stale), soft compaction records exactly one
`file_compress` event — but its `tokens_freed` is 0, not 900, because the
message-token total (600) is unchanged by the file-reference update; the 900
tokens appear only in the event's `tokens_saved` detail. -/
theorem c1_tokens_freed_counterexample :
    (soft_compact ⟨[⟨1, "user", [], 100, 1, false⟩, ⟨2, "user", [], 100, 2, false⟩,
        ⟨3, "user", [], 100, 3, false⟩, ⟨4, "user", [], 100, 4, false⟩,
        ⟨5, "user", [], 100, 5, false⟩, ⟨6, "user", [], 100, 6, false⟩],
        [⟨1, 1, "/a.py", "full", 1000⟩], [], 7⟩).1.compactions
      = [⟨1, 600, 600, 0, "file_compress", some (.fileCompress 1 900)⟩]
    ∧ (0 : Int) ≠ 900 := by
  constructor
  · decide
  · decide

/-- Witness for the amended C1 on a concrete four-message session. -/
theorem c1_soft_compact_stale_file_witness :
    ((⟨[⟨1, "user", [], 10, 1, false⟩, ⟨2, "user", [], 10, 2, false⟩,
        ⟨3, "user", [], 10, 3, false⟩, ⟨4, "user", [], 10, 4, false⟩],
        [⟨1, 1, "/a.py", "full", 1000⟩], [], 5⟩ : SessionDB).fileRefs
      = [⟨1, 1, "/a.py", "full", 1000⟩])
    ∧ ((soft_compact ⟨[⟨1, "user", [], 10, 1, false⟩, ⟨2, "user", [], 10, 2, false⟩,
        ⟨3, "user", [], 10, 3, false⟩, ⟨4, "user", [], 10, 4, false⟩],
        [⟨1, 1, "/a.py", "full", 1000⟩], [], 5⟩).1.fileRefs
        = [{ (⟨1, 1, "/a.py", "full", 1000⟩ : FileRef) with mode := "summary", tokens := 100 }]
      ∧ (soft_compact ⟨[⟨1, "user", [], 10, 1, false⟩, ⟨2, "user", [], 10, 2, false⟩,
        ⟨3, "user", [], 10, 3, false⟩, ⟨4, "user", [], 10, 4, false⟩],
        [⟨1, 1, "/a.py", "full", 1000⟩], [], 5⟩).1.compactions
        = (⟨[⟨1, "user", [], 10, 1, false⟩, ⟨2, "user", [], 10, 2, false⟩,
        ⟨3, "user", [], 10, 3, false⟩, ⟨4, "user", [], 10, 4, false⟩],
        [⟨1, 1, "/a.py", "full", 1000⟩], [], 5⟩ : SessionDB).compactions ++
          [{ level := 1,
             tokensBefore := get_message_tokens ⟨[⟨1, "user", [], 10, 1, false⟩,
               ⟨2, "user", [], 10, 2, false⟩, ⟨3, "user", [], 10, 3, false⟩,
               ⟨4, "user", [], 10, 4, false⟩], [⟨1, 1, "/a.py", "full", 1000⟩], [], 5⟩,
             tokensAfter := get_message_tokens ⟨[⟨1, "user", [], 10, 1, false⟩,
               ⟨2, "user", [], 10, 2, false⟩, ⟨3, "user", [], 10, 3, false⟩,
               ⟨4, "user", [], 10, 4, false⟩], [⟨1, 1, "/a.py", "full", 1000⟩], [], 5⟩,
             tokensFreed := 0, strategy := "file_compress",
             details := some (.fileCompress 1 900) }]
      ∧ (soft_compact ⟨[⟨1, "user", [], 10, 1, false⟩, ⟨2, "user", [], 10, 2, false⟩,
        ⟨3, "user", [], 10, 3, false⟩, ⟨4, "user", [], 10, 4, false⟩],
        [⟨1, 1, "/a.py", "full", 1000⟩], [], 5⟩).2 = 900) :=
  ⟨rfl,
   c1_soft_compact_stale_file
     ⟨[⟨1, "user", [], 10, 1, false⟩, ⟨2, "user", [], 10, 2, false⟩,
       ⟨3, "user", [], 10, 3, false⟩, ⟨4, "user", [], 10, 4, false⟩],
       [⟨1, 1, "/a.py", "full", 1000⟩], [], 5⟩
     ⟨1, 1, "/a.py", "full", 1000⟩ rfl rfl rfl (by decide) (by decide) (by decide)⟩
